/-
  Verification of the offset/animation engine and content distributor of
  the `growth` review-wall widget (src/src/App.jsx).

  JavaScript numbers are modelled as exact rationals (ℚ); strings are
  modelled as `List Char`.  Every definition below is a direct shallow
  embedding of the corresponding source function, keeping the source's
  names and branch structure.
-/
import Mathlib

namespace Growth

/-! ### Constants (App.jsx lines 6-57) -/

/-- `SPACING = 16` -/
def SPACING : ℚ := 16

/-- `AUTO_SCROLL_SPEED = 1.035` -/
def AUTO_SCROLL_SPEED : ℚ := 1035/1000

/-- `NUM_SHAPES = 40` -/
def NUM_SHAPES : ℕ := 40

/-! ### Offset engine state

The mutable React state touched by the animation loop:
`currentOffset`, `targetOffset`, `velocity`, `isDecelerating`, and the
page scroll position `scrollY` (written by `window.scrollTo`). -/

/-- The `mode` state variable: `'auto'` or `'manual'`. -/
inductive Mode where
  | auto : Mode
  | manual : Mode
deriving DecidableEq, Repr

structure EngineState where
  currentOffset : ℚ
  targetOffset : ℚ
  velocity : ℚ
  isDecelerating : Bool
  scrollY : ℚ
deriving DecidableEq, Repr

/-- `lerp(start, end, factor) = start + (end - start) * factor` (line 185). -/
def lerp (a b factor : ℚ) : ℚ :=
  a + (b - a) * factor

/-- One frame of the unified animation loop (`animate`, lines 191-230).

* auto branch: `newOffset = prev + AUTO_SCROLL_SPEED`, wrapped to `0` when
  `newOffset >= maxOffset`; `targetOffset` and `velocity` are updated.
* decelerating branch (mode manual, `isDecelerating`): velocity is
  multiplied by `0.95`; when the decayed velocity drops below `0.1` it
  snaps to `0`, deceleration ends and `window.scrollTo(0, prev / 0.5)`
  runs; the offset advances by `velocity * 0.95` and is clamped to
  `maxOffset`, force-ending deceleration when the clamp fires.
* manual-tracking branch: the offset snaps to `targetOffset` when
  `|targetOffset - prev| < 0.5` and otherwise eases by
  `lerp(prev, targetOffset, 0.08)`. -/
def animate (maxOffset : ℚ) (mode : Mode) (s : EngineState) : EngineState :=
  match mode with
  | Mode.auto =>
      let newOffset0 := s.currentOffset + AUTO_SCROLL_SPEED
      let newOffset := if maxOffset ≤ newOffset0 then 0 else newOffset0
      { s with currentOffset := newOffset, targetOffset := newOffset,
               velocity := AUTO_SCROLL_SPEED }
  | Mode.manual =>
      if s.isDecelerating then
        let newVelocity := s.velocity * (95/100)
        let snap : Bool := decide (newVelocity < 1/10)
        let velocity1 : ℚ := if snap then 0 else newVelocity
        let decel1 : Bool := if snap then false else s.isDecelerating
        let scrollY1 : ℚ := if snap then s.currentOffset / (5/10) else s.scrollY
        let newOffset0 := s.currentOffset + s.velocity * (95/100)
        let clamped : Bool := decide (maxOffset ≤ newOffset0)
        let newOffset := if clamped then maxOffset else newOffset0
        let decel2 : Bool := if clamped then false else decel1
        { currentOffset := newOffset, targetOffset := newOffset,
          velocity := velocity1, isDecelerating := decel2, scrollY := scrollY1 }
      else
        let diff := |s.targetOffset - s.currentOffset|
        if diff < 1/2 then
          { s with currentOffset := s.targetOffset }
        else
          { s with currentOffset := lerp s.currentOffset s.targetOffset (8/100) }

/-- The scroll handler's target computation (lines 253-259):
`target = min (max (scrollY * 0.5) 0) (maxOffset > 0 ? maxOffset : 0)`,
applied while in manual mode and not decelerating. -/
def handleScrollTarget (maxOffset scrollY : ℚ) : ℚ :=
  let rawOffset := scrollY * (5/10)
  min (max rawOffset 0) (if 0 < maxOffset then maxOffset else 0)

/-- The `useEffect` that fires on a column-count change (lines 276-280):
`setCurrentOffset(0); setTargetOffset(0); window.scrollTo(0, 0)`. -/
def columnChangeReset (s : EngineState) : EngineState :=
  { s with currentOffset := 0, targetOffset := 0, scrollY := 0 }

/-- The manual-tracking update applied to `currentOffset` (lines 221-228),
extracted as a function of the fixed target and the previous offset. -/
def manualStep (target prev : ℚ) : ℚ :=
  let diff := |target - prev|
  if diff < 1/2 then target else lerp prev target (8/100)

/-! ### Classifier and colors (lines 6-48) -/

/-- `POSITIVE_COLORS = ['#99F2AE', '#FFFFFF']` -/
def POSITIVE_COLORS : List (List Char) := ["#99F2AE".toList, "#FFFFFF".toList]

/-- `PROBLEM_COLOR = '#342D37'` -/
def PROBLEM_COLOR : List Char := "#342D37".toList

/-- `LIGHT_BG_COLORS = ['#FFFFFF', '#99F2AE']` -/
def LIGHT_BG_COLORS : List (List Char) := ["#FFFFFF".toList, "#99F2AE".toList]

/-- Value of one hexadecimal digit, as consumed by `parseInt(..., 16)`. -/
def hexDigitVal (c : Char) : ℕ :=
  if '0' ≤ c ∧ c ≤ '9' then c.toNat - '0'.toNat
  else if 'A' ≤ c ∧ c ≤ 'F' then c.toNat - 'A'.toNat + 10
  else if 'a' ≤ c ∧ c ≤ 'f' then c.toNat - 'a'.toNat + 10
  else 0

/-- `parseInt(hexPair, 16)` on a (two-character) hex slice. -/
def parseHexSlice (l : List Char) : ℕ :=
  l.foldl (fun acc c => 16 * acc + hexDigitVal c) 0

/-- `color.replace('#', '')`: JavaScript `replace` with a string pattern
removes only the first occurrence. -/
def removeFirstHash : List Char → List Char
  | [] => []
  | c :: cs => if c = '#' then cs else c :: removeFirstHash cs

/-- `isDark` (lines 15-22): luminance `(0.299r + 0.587g + 0.114b) / 255 < 0.5`
on the hex channels of the color. -/
def isDark (color : List Char) : Bool :=
  let hex := (removeFirstHash color).map Char.toUpper
  let r : ℚ := parseHexSlice (hex.take 2)
  let g : ℚ := parseHexSlice ((hex.drop 2).take 2)
  let b : ℚ := parseHexSlice ((hex.drop 4).take 2)
  let luminance := ((299/1000) * r + (587/1000) * g + (114/1000) * b) / 255
  decide (luminance < 1/2)

/-- `shouldAuthorBeBlack` (lines 25-28). -/
def shouldAuthorBeBlack (color : List Char) : Bool :=
  let normalizedColor := color.map Char.toUpper
  LIGHT_BG_COLORS.any fun c => decide (c.map Char.toUpper = normalizedColor)

/-- `PROBLEM_KEYWORDS` (lines 31-41). -/
def PROBLEM_KEYWORDS : List (List Char) :=
  ["problema".toList, "problemas".toList, "erro".toList, "erros".toList,
   "bug".toList, "bugs".toList,
   "não funciona".toList, "não está funcionando".toList, "não consigo".toList,
   "travando".toList, "travou".toList, "trava".toList, "lento".toList, "lenta".toList,
   "atualização".toList, "atualizacao".toList, "atualizar".toList, "update".toList,
   "péssimo".toList, "pessimo".toList, "ruim".toList, "horrível".toList, "horrivel".toList,
   "reclamação".toList, "reclamacao".toList, "suporte".toList, "ajuda".toList,
   "não abre".toList, "não carrega".toList, "crashando".toList, "crash".toList,
   "demora".toList, "demorado".toList, "instável".toList, "instavel".toList,
   "fechando sozinho".toList, "fecha sozinho".toList, "se fecha".toList]

/-- `needle` occurs as a contiguous slice of `haystack`
(JavaScript `String.prototype.includes`). -/
def startsWithChars : List Char → List Char → Bool
  | _, [] => true
  | [], _ :: _ => false
  | c :: cs, d :: ds => c = d && startsWithChars cs ds

def containsSlice : List Char → List Char → Bool
  | [], needle => needle.isEmpty
  | c :: cs, needle => startsWithChars (c :: cs) needle || containsSlice cs needle

/-- `hasProblem` (lines 44-48): case-insensitive keyword search. -/
def hasProblem (content : List Char) : Bool :=
  if content = [] then false
  else
    let lowerContent := content.map Char.toLower
    PROBLEM_KEYWORDS.any fun keyword => containsSlice lowerContent keyword

/-! ### Content distributor (lines 108-139) -/

/-- A raw review row: `{author, content}`. -/
structure Review where
  author : List Char
  content : List Char
deriving DecidableEq, Inhabited, Repr

/-- A rendered shape tile, as constructed at lines 131-137. -/
structure DisplayItem where
  author : List Char
  content : List Char
  bgColor : List Char
  isLight : Bool
  authorBlack : Bool
deriving DecidableEq, Inhabited, Repr

/-- Whitespace as trimmed by JavaScript `String.prototype.trim`. -/
def jsWhitespace (c : Char) : Bool :=
  c = ' ' || c = '\t' || c = '\n' || c = '\r' || c = '\x0b' || c = '\x0c'

/-- `trim()` removes whitespace from both ends of the string. -/
def jsTrim (l : List Char) : List Char :=
  ((l.dropWhile jsWhitespace).reverse.dropWhile jsWhitespace).reverse

/-- `truncateText` (lines 108-112):
`text.substring(0, maxLength).trim() + '...'` when the text is longer
than the budget. -/
def truncateText (text : List Char) (maxLength : ℕ) : List Char :=
  if text = [] then []
  else if text.length ≤ maxLength then text
  else jsTrim (text.take maxLength) ++ "...".toList

/-- `isProblemsColumn` (line 117): the last column uses the problem pool
when there are at least 2 columns and that pool is non-empty. -/
def isProblemsColumn (numColumns : ℕ) (problemReviews : List Review)
    (isLastColumn : Bool) : Bool :=
  isLastColumn && decide (2 ≤ numColumns) && decide (0 < problemReviews.length)

/-- `sourceReviews` (line 118). -/
def sourceReviews (numColumns : ℕ) (positiveReviews problemReviews : List Review)
    (isLastColumn : Bool) : List Review :=
  if isProblemsColumn numColumns problemReviews isLastColumn then problemReviews
  else positiveReviews

/-- The object built for one shape (lines 125-137): the problems column
uses `PROBLEM_COLOR`, other columns cycle `POSITIVE_COLORS` by position. -/
def mkShapeItem (isProblems : Bool) (i : ℕ) (review : Review) : DisplayItem :=
  let bgColor := if isProblems then PROBLEM_COLOR
    else POSITIVE_COLORS.getD (i % POSITIVE_COLORS.length) []
  { author := truncateText review.author 30,
    content := truncateText review.content 400,
    bgColor := bgColor,
    isLight := !(isDark bgColor),
    authorBlack := shouldAuthorBeBlack bgColor }

/-- `getColumnContent` (lines 115-139): `NUM_SHAPES` items, the `i`-th
drawn from source index `(i + columnIndex*10) % sourceReviews.length`;
empty when the selected pool is empty. -/
def getColumnContent (numColumns : ℕ) (positiveReviews problemReviews : List Review)
    (columnIndex : ℕ) (isLastColumn : Bool) : List DisplayItem :=
  let src := sourceReviews numColumns positiveReviews problemReviews isLastColumn
  if src.length = 0 then []
  else
    (List.range NUM_SHAPES).map fun i =>
      mkShapeItem (isProblemsColumn numColumns problemReviews isLastColumn) i
        (src.getD ((i + columnIndex * 10) % src.length) default)

/-! ### Layout calculator (lines 142-183) -/

/-- `getVisibleRows` (lines 142-153). -/
def getVisibleRows (numColumns : ℕ) : ℕ :=
  match numColumns with
  | 1 => 1
  | 2 => 1
  | 3 => 2
  | 4 => 2
  | _ => 1

/-- `shapeHeight` (lines 174-175):
`((viewportHeight - SPACING*2) - SPACING*(visibleRows - 1)) / visibleRows`. -/
def shapeHeight (viewportHeight : ℚ) (numColumns : ℕ) : ℚ :=
  let visibleRows : ℚ := getVisibleRows numColumns
  let availableHeight := viewportHeight - SPACING * 2
  (availableHeight - SPACING * (visibleRows - 1)) / visibleRows

/-- `itemHeight = shapeHeight + SPACING` (line 176). -/
def itemHeight (viewportHeight : ℚ) (numColumns : ℕ) : ℚ :=
  shapeHeight viewportHeight numColumns + SPACING

/-- `maxOffset = (NUM_SHAPES - visibleRows) * itemHeight` (line 183). -/
def maxOffset (viewportHeight : ℚ) (numColumns : ℕ) : ℚ :=
  ((NUM_SHAPES : ℚ) - (getVisibleRows numColumns : ℚ)) * itemHeight viewportHeight numColumns

/-! ### CSV load completion handler (lines 78-99) -/

/-- The row filter (lines 80-81): both fields present and
`content.length > 10`. -/
def validReviews (rows : List Review) : List Review :=
  rows.filter fun row =>
    decide (row.author ≠ []) && decide (row.content ≠ []) && decide (10 < row.content.length)

/-- The rows pushed to `positive` (lines 87-93). -/
def validPositive (rows : List Review) : List Review :=
  (validReviews rows).filter fun row => !hasProblem row.content

/-- The rows pushed to `problems` (lines 87-93). -/
def validProblems (rows : List Review) : List Review :=
  (validReviews rows).filter fun row => hasProblem row.content

/-- The state written by the completion handler (lines 96-97):
`positive.slice(0, 200)` and `problems.slice(0, 100)`. -/
def loadPools (rows : List Review) : List Review × List Review :=
  ((validPositive rows).take 200, (validProblems rows).take 100)


lemma animate_manual_track (M : ℚ) (s : EngineState) (hd : s.isDecelerating = false) :
    animate M Mode.manual s =
      { s with currentOffset := manualStep s.targetOffset s.currentOffset } := by
  by_cases h : |s.targetOffset - s.currentOffset| < 1/2 <;>
    simp [animate, manualStep, hd, h, -one_div]

lemma animate_manual_decel (M : ℚ) (s : EngineState) (hd : s.isDecelerating = true) :
    animate M Mode.manual s =
      { currentOffset := if M ≤ s.currentOffset + s.velocity * (95/100) then M
          else s.currentOffset + s.velocity * (95/100),
        targetOffset := if M ≤ s.currentOffset + s.velocity * (95/100) then M
          else s.currentOffset + s.velocity * (95/100),
        velocity := if s.velocity * (95/100) < 1/10 then 0 else s.velocity * (95/100),
        isDecelerating := if M ≤ s.currentOffset + s.velocity * (95/100) then false
          else if s.velocity * (95/100) < 1/10 then false else true,
        scrollY := if s.velocity * (95/100) < 1/10 then s.currentOffset / (5/10)
          else s.scrollY } := by
  by_cases h1 : s.velocity * (95/100) < 1/10 <;>
    by_cases h2 : M ≤ s.currentOffset + s.velocity * (95/100) <;>
      simp [animate, hd, h1, h2, -one_div]

lemma animate_auto (M : ℚ) (s : EngineState) :
    animate M Mode.auto s =
      { s with
        currentOffset := if M ≤ s.currentOffset + AUTO_SCROLL_SPEED then 0
          else s.currentOffset + AUTO_SCROLL_SPEED,
        targetOffset := if M ≤ s.currentOffset + AUTO_SCROLL_SPEED then 0
          else s.currentOffset + AUTO_SCROLL_SPEED,
        velocity := AUTO_SCROLL_SPEED } := by
  by_cases h : M ≤ s.currentOffset + AUTO_SCROLL_SPEED <;> simp [animate, h, -one_div]


lemma manual_flag_false_absorbing (M : ℚ) (s : EngineState) (hd : s.isDecelerating = false) :
    (animate M Mode.manual s).isDecelerating = false ∧
    (animate M Mode.manual s).velocity = s.velocity ∧
    (animate M Mode.manual s).targetOffset = s.targetOffset := by
  rw [animate_manual_track M s hd]
  exact ⟨hd, rfl, rfl⟩

lemma manual_flag_step (M : ℚ) (s : EngineState)
    (h : (animate M Mode.manual s).isDecelerating = true) : s.isDecelerating = true := by
  by_contra hn
  have hd : s.isDecelerating = false := by simpa using hn
  have h2 := (manual_flag_false_absorbing M s hd).1
  rw [h2] at h
  exact Bool.false_ne_true h

/-! manualStep basic lemmas -/

lemma manualStep_self (T : ℚ) : manualStep T T = T := by
  simp [manualStep]

lemma manualStep_snap (T o : ℚ) (h : |T - o| < 1/2) : manualStep T o = T := by
  simp [manualStep, h, -one_div]

lemma manualStep_le (T o : ℚ) (h : o ≤ T) : manualStep T o ≤ T := by
  simp only [manualStep, lerp]
  split
  · exact le_refl T
  · nlinarith

lemma manualStep_ge (T o : ℚ) (h : T ≤ o) : T ≤ manualStep T o := by
  simp only [manualStep, lerp]
  split
  · exact le_refl T
  · nlinarith

lemma manualStep_contract (T o : ℚ) :
    |T - manualStep T o| ≤ |T - o| * (92/100) := by
  simp only [manualStep, lerp]
  split
  · simp
  · have h : T - (o + (T - o) * (8/100)) = (T - o) * (92/100) := by ring
    rw [h, abs_mul]
    have : |(92:ℚ)/100| = 92/100 := by norm_num
    rw [this]

lemma manualStep_iter_contract (T o : ℚ) (n : ℕ) :
    |T - (manualStep T)^[n] o| ≤ |T - o| * (92/100)^n := by
  induction n with
  | zero => simp
  | succ k ih =>
      rw [Function.iterate_succ_apply']
      calc |T - manualStep T ((manualStep T)^[k] o)|
          ≤ |T - (manualStep T)^[k] o| * (92/100) := manualStep_contract _ _
        _ ≤ |T - o| * (92/100)^k * (92/100) := by
            have h92 : (0:ℚ) ≤ 92/100 := by norm_num
            exact mul_le_mul_of_nonneg_right ih h92
        _ = |T - o| * (92/100)^(k+1) := by ring

lemma manualStep_iter_fixed (T : ℚ) (n : ℕ) : (manualStep T)^[n] T = T := by
  induction n with
  | zero => rfl
  | succ k ih => rw [Function.iterate_succ_apply', ih, manualStep_self]

lemma manualStep_stays (T o : ℚ) (k : ℕ) (h : (manualStep T)^[k] o = T) :
    ∀ m, k ≤ m → (manualStep T)^[m] o = T := by
  intro m hm
  obtain ⟨j, rfl⟩ := Nat.exists_eq_add_of_le hm
  rw [Nat.add_comm, Function.iterate_add_apply, h, manualStep_iter_fixed]

lemma manualStep_terminates (T o : ℚ) : ∃ N, (manualStep T)^[N] o = T := by
  by_cases h0 : |T - o| = 0
  · have : T = o := by
      have := abs_eq_zero.mp h0
      linarith [sub_eq_zero.mp this]
    exact ⟨0, this.symm⟩
  · have hpos : 0 < |T - o| := lt_of_le_of_ne (abs_nonneg _) (Ne.symm h0)
    obtain ⟨n, hn⟩ := exists_pow_lt_of_lt_one
      (show (0:ℚ) < (1/2) / |T - o| by positivity) (show (92:ℚ)/100 < 1 by norm_num)
    refine ⟨n + 1, ?_⟩
    have hd : |T - (manualStep T)^[n] o| < 1/2 := by
      have h1 := manualStep_iter_contract T o n
      have h2 : |T - o| * ((92:ℚ)/100)^n < |T - o| * ((1/2) / |T - o|) :=
        mul_lt_mul_of_pos_left hn hpos
      have h3 : |T - o| * ((1/2) / |T - o|) = 1/2 := by field_simp; ring
      calc |T - (manualStep T)^[n] o| ≤ |T - o| * (92/100)^n := h1
        _ < 1/2 := by rw [h3] at h2; exact h2
    rw [Function.iterate_succ_apply', manualStep_snap _ _ hd]

lemma manualStep_no_overshoot_le (T o : ℚ) (h : o ≤ T) :
    ∀ n, (manualStep T)^[n] o ≤ T := by
  intro n
  induction n with
  | zero => exact h
  | succ k ih => rw [Function.iterate_succ_apply']; exact manualStep_le _ _ ih

lemma manualStep_no_overshoot_ge (T o : ℚ) (h : T ≤ o) :
    ∀ n, T ≤ (manualStep T)^[n] o := by
  intro n
  induction n with
  | zero => exact h
  | succ k ih => rw [Function.iterate_succ_apply']; exact manualStep_ge _ _ ih

/-- Iterating manual frames only moves `currentOffset`, by `manualStep`. -/
lemma manual_iterate (M : ℚ) (s : EngineState) (hd : s.isDecelerating = false) (n : ℕ) :
    (animate M Mode.manual)^[n] s =
      { s with currentOffset := (manualStep s.targetOffset)^[n] s.currentOffset } := by
  induction n with
  | zero => rfl
  | succ k ih =>
      have hd2 : ({ s with currentOffset := (manualStep s.targetOffset)^[k] s.currentOffset }
          : EngineState).isDecelerating = false := hd
      rw [Function.iterate_succ_apply', ih, animate_manual_track M _ hd2,
        Function.iterate_succ_apply']


/-- C2: manual tracking converges exactly to the fixed target, never
overshooting in the direction of travel. -/
theorem manual_tracking_converges (M : ℚ) (s : EngineState)
    (hd : s.isDecelerating = false) :
    (∀ n, ((animate M Mode.manual)^[n] s).targetOffset = s.targetOffset) ∧
    (s.currentOffset ≤ s.targetOffset →
      ∀ n, ((animate M Mode.manual)^[n] s).currentOffset ≤ s.targetOffset) ∧
    (s.targetOffset ≤ s.currentOffset →
      ∀ n, s.targetOffset ≤ ((animate M Mode.manual)^[n] s).currentOffset) ∧
    (∃ N, ∀ m, N ≤ m →
      ((animate M Mode.manual)^[m] s).currentOffset = s.targetOffset) := by
  refine ⟨?_, ?_, ?_, ?_⟩
  · intro n; rw [manual_iterate M s hd n]
  · intro h n; rw [manual_iterate M s hd n]
    exact manualStep_no_overshoot_le _ _ h n
  · intro h n; rw [manual_iterate M s hd n]
    exact manualStep_no_overshoot_ge _ _ h n
  · obtain ⟨N, hN⟩ := manualStep_terminates s.targetOffset s.currentOffset
    refine ⟨N, fun m hm => ?_⟩
    rw [manual_iterate M s hd m]
    exact manualStep_stays _ _ N hN m hm

theorem manual_tracking_converges_witness :
    ((⟨0, 10, 0, false, 0⟩ : EngineState).isDecelerating = false) ∧
    (∃ N, ∀ m, N ≤ m →
      ((animate 100 Mode.manual)^[m] (⟨0, 10, 0, false, 0⟩ : EngineState)).currentOffset =
        (⟨0, 10, 0, false, 0⟩ : EngineState).targetOffset) :=
  ⟨rfl, (manual_tracking_converges 100 ⟨0, 10, 0, false, 0⟩ rfl).2.2.2⟩


/-- Velocity after one decelerating frame. -/
lemma decel_velocity (M : ℚ) (s : EngineState) (hd : s.isDecelerating = true) :
    (animate M Mode.manual s).velocity =
      if s.velocity * (95/100) < 1/10 then 0 else s.velocity * (95/100) := by
  rw [animate_manual_decel M s hd]

/-- The decelerating flag survives one frame exactly when neither the
velocity threshold nor the offset clamp fires. -/
lemma decel_flag_iff (M : ℚ) (s : EngineState) (hd : s.isDecelerating = true) :
    ((animate M Mode.manual s).isDecelerating = true ↔
      1/10 ≤ s.velocity * (95/100) ∧
        s.currentOffset + s.velocity * (95/100) < M) := by
  rw [animate_manual_decel M s hd]
  by_cases h1 : s.velocity * (95/100) < 1/10 <;>
    by_cases h2 : M ≤ s.currentOffset + s.velocity * (95/100) <;>
      simp [h1, h2, -one_div] <;> constructor <;> linarith

/-- While the regime survives, the velocity is the seeded velocity decayed
by `0.95` per frame. -/
lemma decel_iter_velocity (M : ℚ) (s : EngineState) :
    ∀ n, ((animate M Mode.manual)^[n] s).isDecelerating = true →
      ((animate M Mode.manual)^[n] s).velocity = s.velocity * (95/100)^n := by
  intro n
  induction n with
  | zero => intro _; simp
  | succ k ih =>
      intro h
      rw [Function.iterate_succ_apply'] at h ⊢
      have hk : ((animate M Mode.manual)^[k] s).isDecelerating = true :=
        manual_flag_step M _ h
      have hvel := decel_velocity M _ hk
      have hiff := (decel_flag_iff M _ hk).mp h
      rw [hvel, if_neg (not_lt.mpr hiff.1), ih hk, pow_succ, mul_assoc]

/-- While the regime survives, the decayed velocity never dropped under
the threshold. -/
lemma decel_iter_threshold (M : ℚ) (s : EngineState) (n : ℕ)
    (h : ((animate M Mode.manual)^[n+1] s).isDecelerating = true) :
    1/10 ≤ ((animate M Mode.manual)^[n] s).velocity * (95/100) := by
  rw [Function.iterate_succ_apply'] at h
  have hk : ((animate M Mode.manual)^[n] s).isDecelerating = true :=
    manual_flag_step M _ h
  exact ((decel_flag_iff M _ hk).mp h).1


/-- C1 (amended): in the Decelerating regime, `|velocity|` strictly
decreases every frame and the regime ends in a bounded number of frames;
the velocity snaps to `0` when the end comes from the velocity threshold,
while a clamp-forced end retains the decayed velocity. -/
theorem decelerating_monotone_terminates (M : ℚ) (s : EngineState)
    (hd : s.isDecelerating = true) (hv : 1/10 < s.velocity) :
    (∀ n, ((animate M Mode.manual)^[n] s).isDecelerating = true →
      |((animate M Mode.manual)^[n+1] s).velocity| <
        |((animate M Mode.manual)^[n] s).velocity|) ∧
    (∃ n, ((animate M Mode.manual)^[n] s).isDecelerating = false) ∧
    (∀ n, ((animate M Mode.manual)^[n] s).isDecelerating = true →
      ((animate M Mode.manual)^[n] s).velocity * (95/100) < 1/10 →
      ((animate M Mode.manual)^[n+1] s).velocity = 0 ∧
        ((animate M Mode.manual)^[n+1] s).isDecelerating = false) ∧
    (∀ n, ((animate M Mode.manual)^[n] s).isDecelerating = true →
      1/10 ≤ ((animate M Mode.manual)^[n] s).velocity * (95/100) →
      M ≤ ((animate M Mode.manual)^[n] s).currentOffset +
        ((animate M Mode.manual)^[n] s).velocity * (95/100) →
      ((animate M Mode.manual)^[n+1] s).velocity =
        ((animate M Mode.manual)^[n] s).velocity * (95/100) ∧
        ((animate M Mode.manual)^[n+1] s).isDecelerating = false) := by
  have hv0 : 0 < s.velocity := lt_trans (by norm_num) hv
  refine ⟨?_, ?_, ?_, ?_⟩
  · -- strict decrease of |velocity| on every surviving frame
    intro n hn
    have hvn : ((animate M Mode.manual)^[n] s).velocity = s.velocity * (95/100)^n :=
      decel_iter_velocity M s n hn
    have hpos : 0 < ((animate M Mode.manual)^[n] s).velocity := by
      rw [hvn]; positivity
    rw [Function.iterate_succ_apply', decel_velocity M _ hn]
    by_cases hsnap : ((animate M Mode.manual)^[n] s).velocity * (95/100) < 1/10
    · rw [if_pos hsnap]
      simpa using abs_pos.mpr (ne_of_gt hpos)
    · rw [if_neg hsnap]
      rw [abs_of_pos hpos, abs_of_pos (by positivity)]
      nlinarith
  · -- bounded termination
    obtain ⟨n, hn⟩ := exists_pow_lt_of_lt_one
      (show (0:ℚ) < (1/10) / s.velocity by positivity)
      (show (95:ℚ)/100 < 1 by norm_num)
    have hsmall : s.velocity * (95/100)^n < 1/10 := by
      have h2 := mul_lt_mul_of_pos_left hn hv0
      have h3 : s.velocity * ((1/10) / s.velocity) = 1/10 := by
        field_simp
        ring
      rw [h3] at h2
      exact h2
    refine ⟨n, ?_⟩
    by_contra hc
    have hflag : ((animate M Mode.manual)^[n] s).isDecelerating = true := by
      cases h : ((animate M Mode.manual)^[n] s).isDecelerating
      · exact absurd h hc
      · rfl
    match n, hflag, hsmall with
    | 0, hflag, hsmall =>
        simp at hsmall
        linarith
    | Nat.succ m, hflag, hsmall =>
        have hthr := decel_iter_threshold M s m hflag
        have hvm : ((animate M Mode.manual)^[m] s).velocity = s.velocity * (95/100)^m :=
          decel_iter_velocity M s m
            (manual_flag_step M _ (by rwa [Function.iterate_succ_apply'] at hflag))
        rw [hvm] at hthr
        have : s.velocity * (95/100)^(m+1) = s.velocity * (95/100)^m * (95/100) := by
          ring
        rw [this] at hsmall
        linarith
  · -- threshold end: velocity snaps to zero
    intro n hn hth
    rw [Function.iterate_succ_apply', decel_velocity M _ hn,
      animate_manual_decel M _ hn]
    refine ⟨if_pos hth, ?_⟩
    by_cases hcl : M ≤ ((animate M Mode.manual)^[n] s).currentOffset +
        ((animate M Mode.manual)^[n] s).velocity * (95/100) <;>
      simp [hcl, hth, -one_div]
  · -- clamp-forced end: decayed velocity is retained
    intro n hn hth hcl
    rw [Function.iterate_succ_apply', decel_velocity M _ hn,
      animate_manual_decel M _ hn]
    constructor
    · rw [if_neg (not_lt.mpr hth)]
    · simp [hcl, -one_div]

/-- C1 counterexample: starting at the clamp boundary (`offset = maxOffset`)
with the auto-scroll velocity, the regime ends after one frame while the
velocity is still positive — it does not snap to `0`. -/
theorem decelerating_clamp_counterexample :
    (animate 100 Mode.manual (⟨100, 0, 1035/1000, true, 0⟩ : EngineState)).isDecelerating
        = false ∧
    (animate 100 Mode.manual (⟨100, 0, 1035/1000, true, 0⟩ : EngineState)).velocity
        = 3933/4000 ∧
    0 < (animate 100 Mode.manual (⟨100, 0, 1035/1000, true, 0⟩ : EngineState)).velocity := by
  refine ⟨?_, ?_, ?_⟩ <;> norm_num [animate]

theorem decelerating_monotone_terminates_witness :
    ((⟨0, 0, 2, true, 0⟩ : EngineState).isDecelerating = true) ∧
    ((1:ℚ)/10 < (⟨0, 0, 2, true, 0⟩ : EngineState).velocity) ∧
    (∃ n, ((animate 1000000 Mode.manual)^[n]
      (⟨0, 0, 2, true, 0⟩ : EngineState)).isDecelerating = false) :=
  ⟨rfl, by norm_num,
    (decelerating_monotone_terminates 1000000 ⟨0, 0, 2, true, 0⟩ rfl (by norm_num)).2.1⟩


/-- C3: every auto frame adds `AUTO_SCROLL_SPEED`, hard-resets to `0`
exactly when the incremented value reaches `maxOffset`, and keeps
`targetOffset` equal to the new offset. -/
theorem auto_mode_step (M : ℚ) (s : EngineState) :
    ((animate M Mode.auto s).currentOffset =
      if M ≤ s.currentOffset + AUTO_SCROLL_SPEED then 0
      else s.currentOffset + AUTO_SCROLL_SPEED) ∧
    (animate M Mode.auto s).targetOffset = (animate M Mode.auto s).currentOffset ∧
    (animate M Mode.auto s).velocity = AUTO_SCROLL_SPEED ∧
    (M ≤ s.currentOffset + AUTO_SCROLL_SPEED →
      (animate M Mode.auto s).currentOffset = 0) ∧
    (0 ≤ M → M ≤ s.currentOffset + AUTO_SCROLL_SPEED →
      (animate M Mode.auto s).currentOffset ≤ M) ∧
    (s.currentOffset + AUTO_SCROLL_SPEED < M →
      (animate M Mode.auto s).currentOffset = s.currentOffset + AUTO_SCROLL_SPEED) := by
  rw [animate_auto M s]
  refine ⟨rfl, rfl, rfl, ?_, ?_, ?_⟩
  · intro h; simp [h, -one_div]
  · intro h0 h; simp [h, h0, -one_div]
  · intro h; rw [if_neg (not_le.mpr h)]

theorem auto_mode_step_witness :
    (0:ℚ) ≤ 1 ∧ ((1:ℚ) ≤ (⟨0, 0, 0, false, 0⟩ : EngineState).currentOffset + AUTO_SCROLL_SPEED) ∧
    (animate 1 Mode.auto (⟨0, 0, 0, false, 0⟩ : EngineState)).currentOffset ≤ 1 :=
  ⟨by norm_num, by norm_num [AUTO_SCROLL_SPEED],
    (auto_mode_step 1 ⟨0, 0, 0, false, 0⟩).2.2.2.2.1 (by norm_num)
      (by norm_num [AUTO_SCROLL_SPEED])⟩

/-- C4: when deceleration ends through the velocity threshold, the page
scroll is set to `offset / 0.5`, and the manual-target formula maps that
scroll position back to exactly the same offset. -/
theorem decel_end_scroll_roundtrip (M : ℚ) (s : EngineState)
    (hd : s.isDecelerating = true) (hth : s.velocity * (95/100) < 1/10)
    (h0 : 0 ≤ s.currentOffset) (hM : s.currentOffset ≤ M) (hMpos : 0 < M) :
    (animate M Mode.manual s).scrollY = s.currentOffset / (5/10) ∧
    handleScrollTarget M ((animate M Mode.manual s).scrollY) = s.currentOffset := by
  have hscroll : (animate M Mode.manual s).scrollY = s.currentOffset / (5/10) := by
    rw [animate_manual_decel M s hd]
    exact if_pos hth
  refine ⟨hscroll, ?_⟩
  rw [hscroll]
  unfold handleScrollTarget
  have hmul : s.currentOffset / (5/10) * (5/10) = s.currentOffset := by
    field_simp
  rw [if_pos hMpos, hmul]
  simp only [max_eq_left h0, min_eq_left hM]

theorem decel_end_scroll_roundtrip_witness :
    ((⟨3, 0, 1/20, true, 0⟩ : EngineState).isDecelerating = true) ∧
    ((⟨3, 0, 1/20, true, 0⟩ : EngineState).velocity * (95/100) < 1/10) ∧
    (animate 10 Mode.manual (⟨3, 0, 1/20, true, 0⟩ : EngineState)).scrollY =
      (⟨3, 0, 1/20, true, 0⟩ : EngineState).currentOffset / (5/10) ∧
    handleScrollTarget 10
        ((animate 10 Mode.manual (⟨3, 0, 1/20, true, 0⟩ : EngineState)).scrollY) =
      (⟨3, 0, 1/20, true, 0⟩ : EngineState).currentOffset :=
  ⟨rfl, by norm_num,
    (decel_end_scroll_roundtrip 10 ⟨3, 0, 1/20, true, 0⟩ rfl (by norm_num)
      (by norm_num) (by norm_num) (by norm_num)).1,
    (decel_end_scroll_roundtrip 10 ⟨3, 0, 1/20, true, 0⟩ rfl (by norm_num)
      (by norm_num) (by norm_num) (by norm_num)).2⟩

/-- C5 (amended): a column-count change zeroes the current offset, the
target offset and the page scroll, but leaves the velocity and the
decelerating flag untouched. -/
theorem column_change_reset_amended (s : EngineState) :
    (columnChangeReset s).currentOffset = 0 ∧
    (columnChangeReset s).targetOffset = 0 ∧
    (columnChangeReset s).scrollY = 0 ∧
    (columnChangeReset s).velocity = s.velocity ∧
    (columnChangeReset s).isDecelerating = s.isDecelerating :=
  ⟨rfl, rfl, rfl, rfl, rfl⟩

/-- C5 counterexample: with a decelerating state of velocity `1.035`, the
column-count reset leaves the velocity positive (not zeroed) and the
decelerating flag still set. -/
theorem column_change_reset_counterexample :
    (columnChangeReset (⟨5, 5, 1035/1000, true, 7⟩ : EngineState)).velocity
        = 1035/1000 ∧
    0 < (columnChangeReset (⟨5, 5, 1035/1000, true, 7⟩ : EngineState)).velocity ∧
    (columnChangeReset (⟨5, 5, 1035/1000, true, 7⟩ : EngineState)).isDecelerating
        = true := by
  refine ⟨rfl, by norm_num [columnChangeReset], rfl⟩


/-! ### Layout (C6) -/

lemma maxOffset_eval_c1 (H : ℚ) : maxOffset H 1 = 39 * (H - 16) := by
  simp [maxOffset, itemHeight, shapeHeight, getVisibleRows, SPACING, NUM_SHAPES]
  ring

lemma maxOffset_eval_c2 (H : ℚ) : maxOffset H 2 = 39 * (H - 16) := by
  simp [maxOffset, itemHeight, shapeHeight, getVisibleRows, SPACING, NUM_SHAPES]
  ring

lemma maxOffset_eval_c3 (H : ℚ) : maxOffset H 3 = 19 * (H - 16) := by
  simp [maxOffset, itemHeight, shapeHeight, getVisibleRows, SPACING, NUM_SHAPES]
  ring

lemma maxOffset_eval_c4 (H : ℚ) : maxOffset H 4 = 19 * (H - 16) := by
  simp [maxOffset, itemHeight, shapeHeight, getVisibleRows, SPACING, NUM_SHAPES]
  ring

/-- C6 (amended): the computed `maxOffset` is nonnegative exactly for
viewport heights of at least `SPACING`; it is zero exactly at
`H = SPACING` and negative below it (callers clamp it at `0`). -/
theorem maxOffset_sign_amended (H : ℚ) (c : ℕ)
    (hc : c = 1 ∨ c = 2 ∨ c = 3 ∨ c = 4) :
    (SPACING ≤ H → 0 ≤ maxOffset H c) ∧
    (H < SPACING → maxOffset H c < 0) ∧
    (maxOffset H c = 0 ↔ H = SPACING) := by
  have hS : SPACING = 16 := rfl
  rcases hc with rfl | rfl | rfl | rfl <;>
    rw [hS] <;>
    first
      | rw [maxOffset_eval_c1]
      | rw [maxOffset_eval_c2]
      | rw [maxOffset_eval_c3]
      | rw [maxOffset_eval_c4]
  all_goals
    refine ⟨fun h => by linarith, fun h => by linarith, ?_⟩
  all_goals
    constructor <;> intro h <;> linarith

/-- C6 counterexample: at viewport height `0` with one column the computed
`maxOffset` is negative, refuting nonnegativity for all `H`. -/
theorem maxOffset_negative_counterexample : maxOffset 0 1 < 0 := by
  rw [maxOffset_eval_c1]
  norm_num

theorem maxOffset_sign_amended_witness :
    ((1:ℕ) = 1 ∨ (1:ℕ) = 2 ∨ (1:ℕ) = 3 ∨ (1:ℕ) = 4) ∧
    (SPACING ≤ (20:ℚ)) ∧ 0 ≤ maxOffset 20 1 :=
  ⟨Or.inl rfl, by norm_num [SPACING],
    (maxOffset_sign_amended 20 1 (Or.inl rfl)).1 (by norm_num [SPACING])⟩


/-! ### Distributor helpers (C7, C8, C9) -/

lemma getD_map_range {α : Type} (f : ℕ → α) (n i : ℕ) (d : α) (h : i < n) :
    ((List.range n).map f).getD i d = f i := by
  have hl : i < ((List.range n).map f).length := by simpa using h
  rw [List.getD_eq_getElem _ _ hl, List.getElem_map]
  simp

lemma getColumnContent_of_empty (nc : ℕ) (pos probs : List Review) (k : ℕ) (last : Bool)
    (h : sourceReviews nc pos probs last = []) :
    getColumnContent nc pos probs k last = [] := by
  simp [getColumnContent, h]

lemma getColumnContent_length (nc : ℕ) (pos probs : List Review) (k : ℕ) (last : Bool)
    (h : sourceReviews nc pos probs last ≠ []) :
    (getColumnContent nc pos probs k last).length = 40 := by
  simp [getColumnContent, h, NUM_SHAPES]

lemma getColumnContent_getD (nc : ℕ) (pos probs : List Review) (k : ℕ) (last : Bool)
    (i : ℕ) (h : sourceReviews nc pos probs last ≠ []) (hi : i < 40) :
    (getColumnContent nc pos probs k last).getD i default =
      mkShapeItem (isProblemsColumn nc probs last) i
        ((sourceReviews nc pos probs last).getD
          ((i + k * 10) % (sourceReviews nc pos probs last).length) default) := by
  have hlen : ¬ (sourceReviews nc pos probs last).length = 0 := by
    simpa [List.length_eq_zero] using h
  simp only [getColumnContent, hlen, if_false]
  exact getD_map_range _ NUM_SHAPES i default hi


/-- C7: the distributor emits exactly `NUM_SHAPES` items drawn cyclically
with index `(i + columnIndex*10) % pool.length`, the empty list for an
empty pool; with a pool of 5 reviews, column 1 repeats column 0 exactly. -/
theorem column_content_mapping (nc : ℕ) (pos probs : List Review) (k : ℕ) (last : Bool) :
    (sourceReviews nc pos probs last = [] →
      getColumnContent nc pos probs k last = []) ∧
    (sourceReviews nc pos probs last ≠ [] →
      (getColumnContent nc pos probs k last).length = 40 ∧
      ∀ i, i < 40 →
        (getColumnContent nc pos probs k last).getD i default =
          mkShapeItem (isProblemsColumn nc probs last) i
            ((sourceReviews nc pos probs last).getD
              ((i + k * 10) % (sourceReviews nc pos probs last).length) default)) ∧
    (pos.length = 5 →
      getColumnContent nc pos probs 0 false = getColumnContent nc pos probs 1 false) := by
  refine ⟨getColumnContent_of_empty nc pos probs k last, fun h => ⟨?_, ?_⟩, fun h5 => ?_⟩
  · exact getColumnContent_length nc pos probs k last h
  · intro i hi
    exact getColumnContent_getD nc pos probs k last i h hi
  · have hsrc : sourceReviews nc pos probs false = pos := by
      simp [sourceReviews, isProblemsColumn]
    have hlen : ¬ (sourceReviews nc pos probs false).length = 0 := by
      rw [hsrc, h5]; norm_num
    simp only [getColumnContent, hlen, if_false]
    refine List.map_congr_left fun i _ => ?_
    rw [hsrc, h5]
    have : (i + 0 * 10) % 5 = (i + 1 * 10) % 5 := by omega
    rw [this]

theorem column_content_mapping_witness :
    (sourceReviews 2 ([] : List Review) [] false = []) ∧
    getColumnContent 2 [] [] 0 false = [] ∧
    sourceReviews 2 [⟨"a".toList, "b".toList⟩] [] false ≠ [] ∧
    (getColumnContent 2 [⟨"a".toList, "b".toList⟩] [] 0 false).length = 40 :=
  ⟨rfl, (column_content_mapping 2 [] [] 0 false).1 rfl,
   by decide,
   ((column_content_mapping 2 [⟨"a".toList, "b".toList⟩] [] 0 false).2.1 (by decide)).1⟩


lemma jsTrim_length_le (l : List Char) : (jsTrim l).length ≤ l.length := by
  unfold jsTrim
  calc (((l.dropWhile jsWhitespace).reverse.dropWhile jsWhitespace).reverse).length
      = ((l.dropWhile jsWhitespace).reverse.dropWhile jsWhitespace).length := by
        rw [List.length_reverse]
    _ ≤ (l.dropWhile jsWhitespace).reverse.length := (List.dropWhile_sublist _).length_le
    _ = (l.dropWhile jsWhitespace).length := by rw [List.length_reverse]
    _ ≤ l.length := (List.dropWhile_sublist _).length_le

/-- The truncated text never exceeds the budget plus the 3-character
ellipsis marker. -/
lemma truncateText_length_le (text : List Char) (maxLength : ℕ) :
    (truncateText text maxLength).length ≤ maxLength + 3 := by
  unfold truncateText
  by_cases h0 : text = []
  · simp [h0]
  · rw [if_neg h0]
    by_cases h1 : text.length ≤ maxLength
    · rw [if_pos h1]; omega
    · rw [if_neg h1, List.length_append]
      have h2 : (jsTrim (text.take maxLength)).length ≤ maxLength := by
        calc (jsTrim (text.take maxLength)).length ≤ (text.take maxLength).length :=
              jsTrim_length_le _
          _ ≤ maxLength := by simp [List.length_take]
      have h3 : ("...".toList).length = 3 := by decide
      omega

/-- C8 (amended): every emitted item carries an author of at most
`30 + 3` characters and a content of at most `400 + 3` characters — the
30/400 budgets bound the kept prefix, and a cut appends the 3-character
`...` marker after trimming surrounding whitespace. -/
theorem truncation_bounds_amended (nc : ℕ) (pos probs : List Review) (k : ℕ) (last : Bool)
    (i : ℕ) (hi : i < (getColumnContent nc pos probs k last).length) :
    ((getColumnContent nc pos probs k last).getD i default).author.length ≤ 33 ∧
    ((getColumnContent nc pos probs k last).getD i default).content.length ≤ 403 := by
  by_cases hsrc : sourceReviews nc pos probs last = []
  · rw [getColumnContent_of_empty nc pos probs k last hsrc] at hi
    simp at hi
  · have hlen := getColumnContent_length nc pos probs k last hsrc
    rw [hlen] at hi
    rw [getColumnContent_getD nc pos probs k last i hsrc hi]
    exact ⟨truncateText_length_le _ 30, truncateText_length_le _ 400⟩

/-- C8 counterexample: a 31-character author yields a 33-character author
field (30 kept plus the 3-character marker), refuting the 30-character
bound claimed for the field. -/
theorem truncation_counterexample :
    30 < ((getColumnContent 1 [⟨List.replicate 31 'a', List.replicate 11 'b'⟩] [] 0
        false).getD 0 default).author.length := by
  decide

theorem truncation_bounds_amended_witness :
    (0 < (getColumnContent 2 [⟨"a".toList, "b".toList⟩] [] 0 false).length) ∧
    ((getColumnContent 2 [⟨"a".toList, "b".toList⟩] [] 0 false).getD 0
        default).author.length ≤ 33 :=
  ⟨by decide,
   (truncation_bounds_amended 2 [⟨"a".toList, "b".toList⟩] [] 0 false 0 (by decide)).1⟩


/-- C9: a column draws from the problems pool exactly when it is the last
column, at least 2 columns are shown and the problems pool is non-empty;
problems items all get `PROBLEM_COLOR` while normal items cycle the
2-color palette by position. -/
theorem flagged_column_policy (nc : ℕ) (pos probs : List Review) (k : ℕ) (last : Bool) :
    (isProblemsColumn nc probs last = true ↔
      (last = true ∧ 2 ≤ nc ∧ probs ≠ [])) ∧
    (isProblemsColumn nc probs last = true →
      sourceReviews nc pos probs last = probs ∧
      (probs ≠ [] → ∀ i, i < 40 →
        ((getColumnContent nc pos probs k last).getD i default).bgColor =
          PROBLEM_COLOR)) ∧
    (isProblemsColumn nc probs last = false →
      sourceReviews nc pos probs last = pos ∧
      (pos ≠ [] → ∀ i, i < 40 →
        ((getColumnContent nc pos probs k last).getD i default).bgColor =
          POSITIVE_COLORS.getD (i % 2) [])) := by
  refine ⟨?_, fun hp => ⟨?_, fun hne i hi => ?_⟩, fun hp => ⟨?_, fun hne i hi => ?_⟩⟩
  · simp [isProblemsColumn, List.length_pos, and_assoc]
  · simp [sourceReviews, hp]
  · have hsrc : sourceReviews nc pos probs last = probs := by simp [sourceReviews, hp]
    rw [getColumnContent_getD nc pos probs k last i (by rwa [hsrc]) hi, hp]
    rfl
  · simp [sourceReviews, hp]
  · have hsrc : sourceReviews nc pos probs last = pos := by simp [sourceReviews, hp]
    rw [getColumnContent_getD nc pos probs k last i (by rwa [hsrc]) hi, hp]
    rfl

theorem flagged_column_policy_witness :
    (isProblemsColumn 2 [⟨"a".toList, "b".toList⟩] true = true) ∧
    (([⟨"a".toList, "b".toList⟩] : List Review) ≠ []) ∧ (0:ℕ) < 40 ∧
    ((getColumnContent 2 [] [⟨"a".toList, "b".toList⟩] 0 true).getD 0
        default).bgColor = PROBLEM_COLOR :=
  ⟨by decide, by decide, by decide,
   ((flagged_column_policy 2 [] [⟨"a".toList, "b".toList⟩] 0 true).2.1
      (by decide)).2 (by decide) 0 (by decide)⟩

/-- C10: after a load, the positive pool keeps at most the first 200
non-problem rows and the problems pool at most the first 100 problem rows,
so the displayed totals are bounded by 300 and 100. -/
theorem load_pool_bounds (rows : List Review) :
    (loadPools rows).1.length ≤ 200 ∧
    (loadPools rows).2.length ≤ 100 ∧
    (loadPools rows).1.length + (loadPools rows).2.length ≤ 300 ∧
    (loadPools rows).1 = (validPositive rows).take 200 ∧
    (loadPools rows).2 = (validProblems rows).take 100 := by
  refine ⟨?_, ?_, ?_, rfl, rfl⟩ <;> simp [loadPools, List.length_take] <;> omega

end Growth
